import Mathlib

/-!
# Session transport layer of the Mumble client (`src/mumble/ServerHandler.cpp`)

A shallow embedding of `ServerHandler`: the handler's member variables are a
record, every member function is a pure function from the record (and the
collaborators it consults) to the new record and the ordered list of calls it
makes on its collaborators.

Code that `ServerHandler.cpp` only includes (the `Message` hierarchy and its
codec, `PacketDataStream`, `Player`, `Connection`, `Database`, the Qt classes)
is taken as a parameter: see `Env` and `Global`.
-/

namespace Mumble

/-! ## Data model -/

/-- A `QByteArray`, as the list of its bytes. -/
abbrev QByteArray := List Nat

/-- A `QHostAddress`; only equality of addresses is used. -/
abbrev QHostAddress := Nat

/-- A `QSslCertificate`, identified by a number. -/
abbrev QSslCertificate := Nat

/-- A `QSslError`, identified by a number. -/
abbrev QSslError := Nat

/-- The word size of `quint64`. -/
def U64 : Nat := 2 ^ 64

/-- Subtraction `a - b` of two `quint64` values (wraps around modulo `2^64`). -/
def subU64 (a b : Nat) : Nat := (a % U64 + U64 - b % U64) % U64

/-- The enumerators of `Message::MessageType` (declared in `Message.h`) that the
handler names, by their numeric values. Enumerators of one `enum` are pairwise
distinct. -/
structure MessageTypes where
  Speex : Nat
  Ping : Nat
  ServerLeave : Nat
  ServerAuthenticate : Nat
  distinct : [Speex, Ping, ServerLeave, ServerAuthenticate].Nodup

/-- A protocol message: the base class field `uiSession`, the value of the virtual
`messageType()`, and the subclass fields the handler reads or writes
(`MessagePing::uiTimestamp`, `MessageSpeex::qbaSpeexPacket` and `iSeq`,
`MessageServerAuthenticate::qsUsername`, `qsPassword` and `iMaxBandwidth`). -/
structure Message where
  messageType : Nat
  uiSession : Nat
  uiTimestamp : Nat
  qbaSpeexPacket : QByteArray
  iSeq : Nat
  qsUsername : String
  qsPassword : String
  iMaxBandwidth : Int
deriving DecidableEq, Repr

/-- The fields of `Player` the handler reads. -/
structure Player where
  uiSession : Nat
  bLocalMute : Bool
deriving DecidableEq, Repr

/-- The control connection (`Connection` over a `QSslSocket`), by what the handler
asks of it, and whether its socket has completed the encrypted handshake. -/
structure Connection where
  peerCertificateChain : List QSslCertificate
  sessionCipher : Nat
  peerAddress : QHostAddress
  encrypted : Bool
deriving DecidableEq, Repr

/-- A datagram waiting in the socket: its bytes, and the sender address and port
that `readDatagram` reports (`senderPort` is a `quint16`). A UDP datagram is
shorter than the 65536 byte read buffer, so `readDatagram` stores all of `data`. -/
structure Datagram where
  data : QByteArray
  senderAddr : QHostAddress
  senderPort : Nat
deriving DecidableEq, Repr

/-- The datagram socket `QUdpSocket`, by its queue of pending datagrams. -/
structure QUdpSocket where
  pending : List Datagram
deriving DecidableEq, Repr

/-- Who receives a posted event: the handler itself (`this`) or the main window
(`g.mw`). -/
inductive Receiver where
  | self
  | mw
deriving DecidableEq, Repr

/-- The calls the handler makes on its collaborators, with their arguments as they
are written at the call (the port of `writeDatagram` and `connectToHostEncrypted` is
the `int` member `iPort`). -/
inductive Effect where
  /-- The call `qusUdp->writeDatagram(buffer, pds.size(), addr, port)` -/
  | writeDatagram (data : QByteArray) (addr : QHostAddress) (port : Int)
  /-- The call `QApplication::postEvent(receiver, new ServerHandlerMessageEvent(qbaMsg, bFlush))` -/
  | postEvent (receiver : Receiver) (qbaMsg : QByteArray) (bFlush : Bool)
  /-- The call `ao->addFrameToBuffer(p, qbaSpeexPacket, iSeq)` -/
  | addFrameToBuffer (p : Player) (qbaSpeexPacket : QByteArray) (iSeq : Nat)
  /-- The call `ao->removeBuffer(p)`; `p` may be the null pointer -/
  | removeBuffer (p : Option Player)
  /-- The call `ao->wipe()` -/
  | wipe
  /-- The call `cConnection->sendMessage(qbaMsg)` -/
  | connSendMessage (qbaMsg : QByteArray)
  /-- The call `cConnection->forceFlush()` -/
  | connForceFlush
  /-- The call `cConnection->disconnect()` -/
  | connDisconnect
  /-- The call `cConnection->sendMessage(&mMsg)` on a message object -/
  | connSendMessagePtr (mMsg : Message)
  /-- The call `cConnection->proceedAnyway()` -/
  | proceedAnyway
  /-- The call `qtsSock->connectToHostEncrypted(host, port)` -/
  | connectToHostEncrypted (host : String) (port : Int)
  /-- The call `ticker->start(msec)` -/
  | tickerStart (msec : Nat)
  /-- The call `ticker->stop()` -/
  | tickerStop
  /-- The creation of the datagram socket, `new QUdpSocket(this)`, and the call
  `qusUdp->bind()` on it -/
  | udpBind
  /-- The call `emit connected()` -/
  | emitConnected
  /-- The call `emit disconnected(reason)` -/
  | emitDisconnected (reason : String)
  /-- The call of `QThread::exit` with code 0: leave the event loop -/
  | exitLoop
deriving DecidableEq, Repr

/-- The code the handler calls but does not define. -/
structure Env where
  /-- The values of the `Message::MessageType` enumerators -/
  types : MessageTypes
  /-- The call `Message::messageToNetwork(QByteArray &)` -/
  messageToNetwork : Message → QByteArray
  /-- The call `Message::messageToNetwork(PacketDataStream &)`: the first `pds.size()` bytes
  of the buffer afterwards -/
  messageToNetworkPds : Message → QByteArray
  /-- The call `Message::networkToMessage`; `none` is the null pointer -/
  networkToMessage : QByteArray → Option Message
  /-- The call `pds >> x` for a `quint32` or `unsigned int`: the value read and the rest of
  the stream -/
  pdsReadU32 : QByteArray → Nat × QByteArray
  /-- The call `pds >> x` for a `quint64` -/
  pdsReadU64 : QByteArray → Nat × QByteArray
  /-- The call `pds.dataBlock(pds.left())` -/
  pdsDataBlock : QByteArray → QByteArray
  /-- The call `tTimestamp.elapsed()`: the value returned by the `k`-th call -/
  elapsed : Nat → Nat
  /-- The call `QString::fromLatin1(cert.digest(QCryptographicHash::Sha1).toHex())` -/
  digestSha1Hex : QSslCertificate → String
  /-- The call `Database::getDigest(host, port)` -/
  getDigest : String → Int → String

/-- The parts of the global `g` the handler consults, with the player table behind
`Player::get`. -/
structure Global where
  /-- The session number `g.uiSession` -/
  uiSession : Nat
  /-- The setting `g.s.bTCPCompat` -/
  bTCPCompat : Bool
  /-- Whether `g.ao` is non-null -/
  ao : Bool
  /-- The pointer `g.ai`, by the value of `ai->getMaxBandwidth()`; `none` is the null pointer -/
  ai : Option Int
  /-- The lookup `Player::get`; `none` is the null pointer -/
  players : Nat → Option Player

/-- The member variables of `ServerHandler`. `nElapsed` counts the calls made to
`tTimestamp.elapsed()` so far. -/
structure ServerHandler where
  cConnection : Option Connection
  qusUdp : Option QUdpSocket
  qhaRemote : QHostAddress
  iPort : Int
  qsHostName : String
  qsUserName : String
  qsPassword : String
  uiTCPPing : Nat
  uiUDPPing : Nat
  qlErrors : List QSslError
  qscCert : List QSslCertificate
  qscCipher : Nat
  nElapsed : Nat
deriving DecidableEq, Repr

/-! ## Member functions -/

/-- The function `ServerHandler::ServerHandler`: the members the constructor sets; the others
start at the given values. -/
def ServerHandler.ServerHandler (sh : ServerHandler) : ServerHandler :=
  { sh with cConnection := none, qusUdp := none, uiTCPPing := 0, uiUDPPing := 0 }

/-- The function `ServerHandler::setConnectionInfo`. -/
def setConnectionInfo (sh : ServerHandler) (host : String) (port : Int)
    (username pw : String) : ServerHandler :=
  { sh with qsHostName := host, iPort := port, qsUserName := username, qsPassword := pw }

/-- The function `ServerHandler::sendMessage`. The handler's members are only read; the result
is the list of calls made on the channels. The write of `g.uiSession` to
`mMsg->uiSession` is applied to the message that is serialized. -/
def sendMessage (env : Env) (g : Global) (sh : ServerHandler) (mMsg : Message)
    (forceTCP : Bool) : List Effect :=
  let mayUdp := !forceTCP &&
    (mMsg.messageType == env.types.Speex || mMsg.messageType == env.types.Ping)
  let mMsg := { mMsg with uiSession := g.uiSession }
  if mayUdp && !g.bTCPCompat then
    match sh.qusUdp with
    | none => []
    | some _ => [Effect.writeDatagram (env.messageToNetworkPds mMsg) sh.qhaRemote sh.iPort]
  else
    [Effect.postEvent Receiver.self (env.messageToNetwork mMsg) mayUdp]

/-- The function `ServerHandler::customEvent` for an event of type `SERVERSEND_EVENT`, that is a
`ServerHandlerMessageEvent` with members `qbaMsg` and `bFlush`. -/
def customEventSend (sh : ServerHandler) (qbaMsg : QByteArray) (bFlush : Bool) :
    List Effect :=
  match sh.cConnection with
  | some _ =>
    if qbaMsg.length > 0 then
      Effect.connSendMessage qbaMsg :: (if bFlush then [Effect.connForceFlush] else [])
    else
      [Effect.connDisconnect]
  | none => []

/-- The function `ServerHandler::customEvent`: `evtType` is `evt->type()`, `SERVERSEND_EVENT` the
value of that constant, and `qbaMsg`, `bFlush` the members read after the cast. -/
def customEvent (SERVERSEND_EVENT : Nat) (sh : ServerHandler) (evtType : Nat)
    (qbaMsg : QByteArray) (bFlush : Bool) : List Effect :=
  if evtType != SERVERSEND_EVENT then [] else customEventSend sh qbaMsg bFlush

/-- One turn of the loop of `ServerHandler::udpReady`, for the datagram `d` that
`readDatagram` returned. -/
def udpDatagram (env : Env) (g : Global) (sh : ServerHandler) (d : Datagram) :
    ServerHandler × List Effect :=
  if !(d.senderAddr == sh.qhaRemote) || ((d.senderPort : Int) != sh.iPort) then
    (sh, [])
  else
    let pds := d.data
    let (msgType, pds) := env.pdsReadU32 pds
    let (uiSession, pds) := env.pdsReadU32 pds
    if msgType == env.types.Ping then
      let (t, _) := env.pdsReadU64 pds
      ({ sh with uiUDPPing := subU64 (env.elapsed sh.nElapsed) t,
                 nElapsed := sh.nElapsed + 1 }, [])
    else if msgType == env.types.Speex then
      let p := g.players uiSession
      if g.ao then
        match p with
        | some pl =>
          if !pl.bLocalMute then
            let (iSeq, pds) := env.pdsReadU32 pds
            let qbaSpeexPacket := env.pdsDataBlock pds
            (sh, [Effect.addFrameToBuffer pl qbaSpeexPacket iSeq])
          else
            (sh, [])
        | none => (sh, [Effect.removeBuffer p])
      else
        (sh, [])
    else
      (sh, [])

/-- The loop of `ServerHandler::udpReady` over the datagrams pending in the socket,
oldest first. -/
def udpLoop (env : Env) (g : Global) : ServerHandler → List Datagram →
    ServerHandler × List Effect
  | sh, [] => (sh, [])
  | sh, d :: ds =>
    let r1 := udpDatagram env g sh d
    let r2 := udpLoop env g r1.1 ds
    (r2.1, r1.2 ++ r2.2)

/-- The function `ServerHandler::udpReady`: reads every pending datagram, leaving the socket's
queue empty. `none`: `qusUdp` is null and the call dereferences it. -/
def udpReady (env : Env) (g : Global) (sh : ServerHandler) :
    Option (ServerHandler × List Effect) :=
  match sh.qusUdp with
  | none => none
  | some sock =>
    let r := udpLoop env g sh sock.pending
    some ({ r.1 with qusUdp := some { pending := [] } }, r.2)

/-- The function `ServerHandler::message`, the slot for a buffer received on the control
connection. -/
def message (env : Env) (g : Global) (sh : ServerHandler) (qbaMsg : QByteArray) :
    ServerHandler × List Effect :=
  match env.networkToMessage qbaMsg with
  | none => (sh, [])
  | some mMsg =>
    let p := g.players mMsg.uiSession
    if mMsg.messageType == env.types.Speex then
      if g.ao then
        match p with
        | some pl =>
          if !pl.bLocalMute then
            (sh, [Effect.addFrameToBuffer pl mMsg.qbaSpeexPacket mMsg.iSeq])
          else
            (sh, [])
        | none => (sh, [Effect.removeBuffer p])
      else
        (sh, [])
    else if mMsg.messageType == env.types.Ping then
      ({ sh with uiTCPPing := subU64 (env.elapsed sh.nElapsed) mMsg.uiTimestamp,
                 nElapsed := sh.nElapsed + 1 }, [])
    else
      let purge :=
        if mMsg.messageType == env.types.ServerLeave then
          (if g.ao then [Effect.removeBuffer p] else [])
        else []
      (sh, purge ++ [Effect.postEvent Receiver.mw qbaMsg false])

/-- The first part of `ServerHandler::run`, up to the event loop `exec()`; `conn` is
the connection object created over the new socket. The signal connections and the
write to the main window's `rtLast` touch no member of the handler and are left out. -/
def runStart (sh : ServerHandler) (conn : Connection) : ServerHandler × List Effect :=
  ({ sh with cConnection := some conn, qlErrors := [], qscCert := [],
             uiUDPPing := 0, uiTCPPing := 0 },
   [Effect.connectToHostEncrypted sh.qsHostName sh.iPort, Effect.tickerStart 5000])

/-- The last part of `ServerHandler::run`, after the event loop has returned.
`none`: `cConnection` is null and the call dereferences it. -/
def runEnd (sh : ServerHandler) : Option (ServerHandler × List Effect) :=
  match sh.cConnection with
  | none => none
  | some _ =>
    some ({ sh with cConnection := none, qusUdp := none },
          [Effect.tickerStop, Effect.connDisconnect])

/-- The function `ServerHandler::setSslErrors`. `none`: `cConnection` is null and the call
dereferences it. -/
def setSslErrors (env : Env) (sh : ServerHandler) (errors : List QSslError) :
    Option (ServerHandler × List Effect) :=
  match sh.cConnection with
  | none => none
  | some c =>
    let sh := { sh with qscCert := c.peerCertificateChain }
    if sh.qscCert.length > 0 &&
        env.digestSha1Hex (sh.qscCert.headD 0) == env.getDigest sh.qsHostName sh.iPort then
      some (sh, [Effect.proceedAnyway])
    else
      some ({ sh with qlErrors := errors }, [])

/-- A default-constructed message of the given type. -/
def Message.ofType (messageType : Nat) : Message :=
  { messageType := messageType, uiSession := 0, uiTimestamp := 0, qbaSpeexPacket := [],
    iSeq := 0, qsUsername := "", qsPassword := "", iMaxBandwidth := 0 }

/-- The function `ServerHandler::sendPing`, the slot of the ticker. -/
def sendPing (env : Env) (g : Global) (sh : ServerHandler) : ServerHandler × List Effect :=
  let mp := { Message.ofType env.types.Ping with uiTimestamp := env.elapsed sh.nElapsed }
  ({ sh with nElapsed := sh.nElapsed + 1 },
   sendMessage env g sh mp true ++ sendMessage env g sh mp false)

/-- The function `ServerHandler::disconnect`. -/
def disconnect : List Effect :=
  [Effect.postEvent Receiver.self [] false]

/-- The function `ServerHandler::serverConnectionClosed`. -/
def serverConnectionClosed (g : Global) (reason : String) : List Effect :=
  (if g.ao then [Effect.wipe] else []) ++ [Effect.emitDisconnected reason, Effect.exitLoop]

/-- The function `ServerHandler::serverConnectionConnected`, the slot of the socket's signal
`encrypted()`. `none`: `cConnection` is null and the call dereferences it. -/
def serverConnectionConnected (env : Env) (g : Global) (sh : ServerHandler) :
    Option (ServerHandler × List Effect) :=
  match sh.cConnection with
  | none => none
  | some c =>
    let msaMsg := { Message.ofType env.types.ServerAuthenticate with
      qsUsername := sh.qsUserName
      qsPassword := sh.qsPassword
      iMaxBandwidth := match g.ai with
        | some bw => bw
        | none => 0 }
    some ({ sh with qscCert := c.peerCertificateChain, qscCipher := c.sessionCipher,
                    qusUdp := some { pending := [] }, qhaRemote := c.peerAddress },
          [Effect.connSendMessagePtr msaMsg, Effect.udpBind, Effect.emitConnected])

/-- Whether the datagram `d` comes from the recorded peer: its sender address equals
`qhaRemote` and its sender port equals `iPort`. -/
def fromPeer (sh : ServerHandler) (d : Datagram) : Bool :=
  d.senderAddr == sh.qhaRemote && (d.senderPort : Int) == sh.iPort

/-- The arguments of the `removeBuffer` calls in a list of calls, in order. -/
def removeBufferCalls (es : List Effect) : List (Option Player) :=
  es.filterMap fun e =>
    match e with
    | Effect.removeBuffer p => some p
    | _ => none

/-! ## Lifecycle of the handler -/

/-- What can happen to a handler: a call of one of its member functions, a signal
that runs one of its slots, or the arrival of a datagram in its socket. -/
inductive Op where
  /-- A call of `setConnectionInfo` -/
  | setConnectionInfo (host : String) (port : Int) (username pw : String)
  /-- The thread starts and runs the first part of `run`, creating `conn` -/
  | runStart (conn : Connection)
  /-- The signal `handleSslErrors` of the connection, slot `setSslErrors` -/
  | setSslErrors (errors : List QSslError)
  /-- The signal `encrypted()` of the socket, emitted when its handshake has completed,
  slot `serverConnectionConnected` -/
  | encrypted
  /-- A datagram arrives and waits in the datagram socket -/
  | datagram (d : Datagram)
  /-- The signal `readyRead()` of the datagram socket, slot `udpReady` -/
  | udpReady
  /-- The signal `message` of the connection, slot `message` -/
  | message (qbaMsg : QByteArray)
  /-- A call of `sendMessage` -/
  | sendMessage (mMsg : Message) (forceTCP : Bool)
  /-- An event delivered to `customEvent` -/
  | customEvent (evtType : Nat) (qbaMsg : QByteArray) (bFlush : Bool)
  /-- The signal `timeout()` of the ticker, slot `sendPing` -/
  | sendPing
  /-- The signal `connectionClosed` of the connection, slot `serverConnectionClosed` -/
  | serverConnectionClosed (reason : String)
  /-- The event loop has returned and the last part of `run` is executed -/
  | runEnd

/-- The handler after `op`, with `g` the global state at that moment; `none` when
`op` cannot happen: `run` starts only while the thread is not running (`cConnection`
is null) and over a socket that has not yet done its handshake, and the signals of
the connection, the datagram socket and the ticker need these objects to exist. The
slot `serverConnectionConnected` runs when the socket has become encrypted. -/
def step (env : Env) (g : Global) (sh : ServerHandler) : Op → Option ServerHandler
  | Op.setConnectionInfo host port username pw =>
    some (setConnectionInfo sh host port username pw)
  | Op.runStart conn =>
    match sh.cConnection with
    | none => if conn.encrypted then none else some (runStart sh conn).1
    | some _ => none
  | Op.setSslErrors errors => (setSslErrors env sh errors).map Prod.fst
  | Op.encrypted =>
    (serverConnectionConnected env g
      { sh with cConnection := sh.cConnection.map fun c => { c with encrypted := true } }).map
      Prod.fst
  | Op.datagram d =>
    match sh.qusUdp with
    | none => none
    | some sock => some { sh with qusUdp := some { pending := sock.pending ++ [d] } }
  | Op.udpReady => (udpReady env g sh).map Prod.fst
  | Op.message qbaMsg =>
    match sh.cConnection with
    | none => none
    | some _ => some (message env g sh qbaMsg).1
  | Op.sendMessage _ _ => some sh
  | Op.customEvent _ _ _ => some sh
  | Op.sendPing =>
    match sh.cConnection with
    | none => none
    | some _ => some (sendPing env g sh).1
  | Op.serverConnectionClosed _ =>
    match sh.cConnection with
    | none => none
    | some _ => some sh
  | Op.runEnd => (runEnd sh).map Prod.fst

/-- The handler after a sequence of happenings, each with the global state at its
moment; `none` when one of them cannot happen. -/
def execOps (env : Env) : ServerHandler → List (Global × Op) → Option ServerHandler
  | sh, [] => some sh
  | sh, (g, op) :: rest =>
    match step env g sh op with
    | none => none
    | some sh1 => execOps env sh1 rest

/-- The states the handler can be in: those reached from a newly constructed handler
by a sequence of happenings. -/
def Reachable (env : Env) (sh : ServerHandler) : Prop :=
  ∃ sh0 ops, execOps env (ServerHandler.ServerHandler sh0) ops = some sh

/-- The invariant of the datagram socket: if it exists then the control connection
exists, has completed its handshake, and has the peer address `qhaRemote`. -/
def udpInvariant (sh : ServerHandler) : Prop :=
  ∀ sock, sh.qusUdp = some sock →
    ∃ c, sh.cConnection = some c ∧ c.encrypted = true ∧ sh.qhaRemote = c.peerAddress

/-! ## Bitrate display of the audio configuration dialog (`AudioConfigDialog.cpp`) -/

/-- The values `AudioConfigDialog::updateBitrate` computes. -/
structure Bitrate where
  audiorate : Int
  overhead : Int
  posrate : Int
  total : Int
deriving DecidableEq, Repr

/-- The function `AudioConfigDialog::updateBitrate`, up to the display of the values:
`audiorate` is the bitrate the Speex encoder reports for the quality setting, `p` is
`qsFrames->value()`, `tcp` is `qcbTCP->isChecked()` and `bTransmitPosition` is
`g.s.bTransmitPosition`. The function returns at once when one of the widgets does
not exist yet; this is the computation made otherwise. The quotients are those of C++
`int` division, and the slider gives `p` between 1 and 4. -/
def updateBitrate (audiorate p : Int) (tcp bTransmitPosition : Bool) : Bitrate :=
  let overhead : Int := 50 * 8 * (20 + 8 + 3 + 1 + 2)
  let overhead := if tcp then overhead + 50 * 8 * 12 else overhead
  let overhead := if p > 1 then overhead + p * 8 * 50 else overhead
  let posrate : Int := if bTransmitPosition then 12 else 0
  let posrate := posrate * 50 * 8
  let overhead := Int.tdiv overhead p
  let posrate := Int.tdiv posrate p
  let total := audiorate + overhead + posrate
  { audiorate := audiorate, overhead := overhead, posrate := posrate, total := total }

/-! ## Concrete collaborators, used to evaluate the functions -/

/-- Sample values of the message type enumerators. -/
def sampleTypes : MessageTypes :=
  { Speex := 2, Ping := 22, ServerLeave := 5, ServerAuthenticate := 1, distinct := by decide }

/-- A sample codec: a message is written as its type, session, timestamp and
sequence number, one per byte, followed by the voice payload. -/
def sampleEncode (m : Message) : QByteArray :=
  m.messageType :: m.uiSession :: m.uiTimestamp :: m.iSeq :: m.qbaSpeexPacket

/-- The sample codec, read back; a buffer shorter than four bytes is not a message. -/
def sampleDecode : QByteArray → Option Message
  | ty :: session :: t :: iSeq :: packet =>
    some { Message.ofType ty with
      uiSession := session, uiTimestamp := t, iSeq := iSeq, qbaSpeexPacket := packet }
  | _ => none

/-- The sample stream reader: one value per byte, 0 at the end of the stream. -/
def sampleRead : QByteArray → Nat × QByteArray
  | [] => (0, [])
  | b :: rest => (b, rest)

/-- Sample collaborators: the clock reads 1000 at every call, certificate `n` has
the digest `toString n`, and the database pins digest 7 for every host. -/
def sampleEnv : Env :=
  { types := sampleTypes
    messageToNetwork := sampleEncode
    messageToNetworkPds := sampleEncode
    networkToMessage := sampleDecode
    pdsReadU32 := sampleRead
    pdsReadU64 := sampleRead
    pdsDataBlock := id
    elapsed := fun _ => 1000
    digestSha1Hex := fun c => toString c
    getDigest := fun _ _ => "7" }

/-- A sample global state: session 9, TCP compatibility off, audio output present,
no audio input, and one known player, session 3, not muted. -/
def sampleGlobal : Global :=
  { uiSession := 9, bTCPCompat := false, ao := true, ai := none
    players := fun s => if s = 3 then some { uiSession := 3, bLocalMute := false } else none }

/-- A sample handler before `run`: no connection, no datagram socket. -/
def sampleIdle : ServerHandler :=
  { cConnection := none, qusUdp := none, qhaRemote := 0, iPort := 64738,
    qsHostName := "host", qsUserName := "user", qsPassword := "pw",
    uiTCPPing := 0, uiUDPPing := 0, qlErrors := [], qscCert := [], qscCipher := 0,
    nElapsed := 0 }

/-- A sample connection after its handshake: peer address 77, certificate chain
`[7, 8]`. -/
def sampleConnection : Connection :=
  { peerCertificateChain := [7, 8], sessionCipher := 1, peerAddress := 77, encrypted := true }

/-- The sample connection as `run` creates it, before its handshake. -/
def sampleFreshConnection : Connection :=
  { sampleConnection with encrypted := false }

/-- A sample connected handler: connection and datagram socket exist, the peer is
address 77, port 64738. -/
def sampleConnected : ServerHandler :=
  { sampleIdle with
    cConnection := some sampleConnection, qusUdp := some { pending := [] }, qhaRemote := 77 }

/-- The sample connected handler with two datagrams pending: a ping from a stranger
(address 5) and then a ping from the recorded peer. -/
def sampleQueued : ServerHandler :=
  { sampleConnected with qusUdp := some { pending :=
      [{ data := [22, 0, 100], senderAddr := 5, senderPort := 64738 },
       { data := [22, 0, 400], senderAddr := 77, senderPort := 64738 }] } }

/-- The sample global state after the player of session 3 has left the player table. -/
def sampleGlobalAfterLeave : Global :=
  { sampleGlobal with players := fun _ => none }

/-- The sample handler after the first part of `run`: the connection exists and has
not done its handshake, the datagram socket does not exist. -/
def sampleConnecting : ServerHandler :=
  (runStart sampleIdle sampleFreshConnection).1

/-- The sample handler right after the handshake of the sample connection. -/
def sampleAfterHandshake : ServerHandler :=
  { sampleConnected with qscCert := [7, 8], qscCipher := 1 }

/-- A sample ping message with timestamp 400. -/
def samplePing : Message :=
  { Message.ofType 22 with uiTimestamp := 400 }

/-! ## Outbound routing -/

/-- C1: while the datagram socket is open, `sendMessage` writes exactly one datagram
to `(qhaRemote, iPort)` and posts nothing if and only if the kind is voice-frame or
ping, `forceTCP` is false and TCP compatibility is off; in every other case it
writes no datagram and posts exactly one event, to the handler itself, carrying the
serialized message. -/
theorem sendMessage_routing_open (env : Env) (g : Global) (sh : ServerHandler)
    (sock : QUdpSocket) (hopen : sh.qusUdp = some sock) (mMsg : Message) (forceTCP : Bool) :
    (((mMsg.messageType = env.types.Speex ∨ mMsg.messageType = env.types.Ping) ∧
        forceTCP = false ∧ g.bTCPCompat = false) →
      sendMessage env g sh mMsg forceTCP =
        [Effect.writeDatagram (env.messageToNetworkPds { mMsg with uiSession := g.uiSession })
          sh.qhaRemote sh.iPort]) ∧
    (¬ ((mMsg.messageType = env.types.Speex ∨ mMsg.messageType = env.types.Ping) ∧
        forceTCP = false ∧ g.bTCPCompat = false) →
      ∃ bFlush, sendMessage env g sh mMsg forceTCP =
        [Effect.postEvent Receiver.self
          (env.messageToNetwork { mMsg with uiSession := g.uiSession }) bFlush]) ∧
    ((∃ data, sendMessage env g sh mMsg forceTCP =
        [Effect.writeDatagram data sh.qhaRemote sh.iPort]) ↔
      ((mMsg.messageType = env.types.Speex ∨ mMsg.messageType = env.types.Ping) ∧
        forceTCP = false ∧ g.bTCPCompat = false)) := by
  by_cases hk : (mMsg.messageType = env.types.Speex ∨ mMsg.messageType = env.types.Ping) ∧
      forceTCP = false ∧ g.bTCPCompat = false
  · have hsend : sendMessage env g sh mMsg forceTCP =
        [Effect.writeDatagram (env.messageToNetworkPds { mMsg with uiSession := g.uiSession })
          sh.qhaRemote sh.iPort] := by
      obtain ⟨hty, hf, hc⟩ := hk
      rcases hty with hty | hty <;> simp [sendMessage, hopen, hty, hf, hc]
    exact ⟨fun _ => hsend, fun hn => absurd hk hn, ⟨fun _ => hk, fun _ => ⟨_, hsend⟩⟩⟩
  · have hpost : ∃ bFlush, sendMessage env g sh mMsg forceTCP =
        [Effect.postEvent Receiver.self
          (env.messageToNetwork { mMsg with uiSession := g.uiSession }) bFlush] := by
      refine ⟨!forceTCP && (mMsg.messageType == env.types.Speex ||
        mMsg.messageType == env.types.Ping), ?_⟩
      have hcond : ((!forceTCP && (mMsg.messageType == env.types.Speex ||
          mMsg.messageType == env.types.Ping)) && !g.bTCPCompat) = false := by
        cases hf : forceTCP <;> cases hc : g.bTCPCompat <;> simp_all
      simp only [sendMessage, hcond]
      simp
    refine ⟨fun h => absurd h hk, fun _ => hpost, ⟨fun h => ?_, fun h => absurd h hk⟩⟩
    obtain ⟨data, hd⟩ := h
    obtain ⟨b, hb⟩ := hpost
    rw [hb] at hd
    simp at hd

/-- Witness of `sendMessage_routing_open`: a ping on the sample connected handler. -/
theorem sendMessage_routing_open_witness :
    sendMessage sampleEnv sampleGlobal sampleConnected samplePing false =
      [Effect.writeDatagram [22, 9, 400, 0] 77 64738] := by
  have h := (sendMessage_routing_open sampleEnv sampleGlobal sampleConnected
    { pending := [] } rfl samplePing false).1 ⟨Or.inr rfl, rfl, rfl⟩
  simpa [sampleEnv, sampleEncode, sampleGlobal, samplePing, Message.ofType, sampleConnected,
    sampleIdle] using h

/-- C2, as stated, fails: a ping sent with `forceTCP = false` while the datagram socket
does not exist and TCP compatibility is off posts no event at all; the message is
dropped. -/
theorem sendMessage_no_socket_counterexample :
    samplePing.messageType = sampleEnv.types.Ping ∧ sampleIdle.qusUdp = none ∧
    sampleGlobal.bTCPCompat = false ∧
    sendMessage sampleEnv sampleGlobal sampleIdle samplePing false = [] ∧
    ¬ ∃ qbaMsg bFlush, sendMessage sampleEnv sampleGlobal sampleIdle samplePing false =
        [Effect.postEvent Receiver.self qbaMsg bFlush] := by
  have h : sendMessage sampleEnv sampleGlobal sampleIdle samplePing false = [] := by
    simp [sendMessage, sampleEnv, sampleTypes, sampleGlobal, sampleIdle, samplePing,
      Message.ofType]
  refine ⟨rfl, rfl, rfl, h, ?_⟩
  rw [h]
  simp

/-- C2, amended: a ping or voice-frame message sent with `forceTCP = false` while the
datagram socket does not exist and TCP compatibility is off is dropped: `sendMessage`
writes no datagram and posts no event. -/
theorem sendMessage_no_socket_drops (env : Env) (g : Global) (sh : ServerHandler)
    (mMsg : Message)
    (hkind : mMsg.messageType = env.types.Speex ∨ mMsg.messageType = env.types.Ping)
    (hnull : sh.qusUdp = none) (hcompat : g.bTCPCompat = false) :
    sendMessage env g sh mMsg false = [] := by
  rcases hkind with hty | hty <;> simp [sendMessage, hnull, hcompat, hty]

/-- Witness of `sendMessage_no_socket_drops`: a voice frame on the sample handler
before `run`. -/
theorem sendMessage_no_socket_drops_witness :
    sendMessage sampleEnv sampleGlobal sampleIdle (Message.ofType 2) false = [] :=
  sendMessage_no_socket_drops sampleEnv sampleGlobal sampleIdle (Message.ofType 2)
    (Or.inl rfl) rfl rfl

/-! ## Inbound datagrams -/

/-- A datagram that is not from the recorded peer is skipped: no member changes and
no call is made. -/
theorem udpDatagram_stranger (env : Env) (g : Global) (sh : ServerHandler) (d : Datagram)
    (h : fromPeer sh d = false) : udpDatagram env g sh d = (sh, []) := by
  have hc : (!(d.senderAddr == sh.qhaRemote) || ((d.senderPort : Int) != sh.iPort)) = true := by
    simp only [fromPeer] at h
    cases h1 : (d.senderAddr == sh.qhaRemote) <;>
      cases h2 : ((d.senderPort : Int) == sh.iPort) <;> simp_all [bne]
  simp only [udpDatagram, hc, if_true]

/-- One turn of the loop changes neither the recorded peer address nor the port. -/
theorem udpDatagram_peer (env : Env) (g : Global) (sh : ServerHandler) (d : Datagram) :
    (udpDatagram env g sh d).1.qhaRemote = sh.qhaRemote ∧
    (udpDatagram env g sh d).1.iPort = sh.iPort := by
  unfold udpDatagram
  split
  · exact ⟨rfl, rfl⟩
  · dsimp only
    split
    · exact ⟨rfl, rfl⟩
    · split
      · split
        · split
          · split <;> exact ⟨rfl, rfl⟩
          · exact ⟨rfl, rfl⟩
        · exact ⟨rfl, rfl⟩
      · exact ⟨rfl, rfl⟩

/-- The predicate `fromPeer` is the same before and after one turn of the loop. -/
theorem fromPeer_udpDatagram (env : Env) (g : Global) (sh : ServerHandler) (d : Datagram) :
    fromPeer (udpDatagram env g sh d).1 = fromPeer sh := by
  funext e
  simp only [fromPeer, (udpDatagram_peer env g sh d).1, (udpDatagram_peer env g sh d).2]

/-- The loop has the same result on a queue and on its datagrams from the recorded
peer. -/
theorem udpLoop_filter (env : Env) (g : Global) (ds : List Datagram) :
    ∀ sh : ServerHandler,
      udpLoop env g sh ds = udpLoop env g sh (ds.filter (fromPeer sh)) := by
  induction ds with
  | nil => intro sh; rfl
  | cons d ds ih =>
    intro sh
    cases hd : fromPeer sh d with
    | false =>
      rw [List.filter_cons_of_neg (by simp [hd])]
      simp only [udpLoop, udpDatagram_stranger env g sh d hd, List.nil_append]
      exact ih sh
    | true =>
      rw [List.filter_cons_of_pos hd]
      simp only [udpLoop]
      rw [ih (udpDatagram env g sh d).1, fromPeer_udpDatagram]

/-- One turn of the loop neither reads nor writes the member `qusUdp`. -/
theorem udpDatagram_qusUdp (env : Env) (g : Global) (sh : ServerHandler) (d : Datagram)
    (q : Option QUdpSocket) :
    udpDatagram env g { sh with qusUdp := q } d =
      ({ (udpDatagram env g sh d).1 with qusUdp := q }, (udpDatagram env g sh d).2) := by
  unfold udpDatagram
  dsimp only
  split
  · rfl
  · split
    · rfl
    · split
      · split
        · split
          · split <;> rfl
          · rfl
        · rfl
      · rfl

/-- The loop neither reads nor writes the member `qusUdp`. -/
theorem udpLoop_qusUdp (env : Env) (g : Global) (q : Option QUdpSocket)
    (ds : List Datagram) :
    ∀ sh : ServerHandler,
      udpLoop env g { sh with qusUdp := q } ds =
        ({ (udpLoop env g sh ds).1 with qusUdp := q }, (udpLoop env g sh ds).2) := by
  induction ds with
  | nil => intro sh; rfl
  | cons d ds ih =>
    intro sh
    simp only [udpLoop, udpDatagram_qusUdp]
    rw [ih (udpDatagram env g sh d).1]

/-- The result of `udpReady` is decided by the loop over the pending queue. -/
theorem udpReady_eq (env : Env) (g : Global) (sh : ServerHandler) (ds : List Datagram) :
    udpReady env g { sh with qusUdp := some { pending := ds } } =
      some ({ (udpLoop env g sh ds).1 with qusUdp := some { pending := [] } },
        (udpLoop env g sh ds).2) := by
  simp only [udpReady, udpLoop_qusUdp]

/-- C3: `udpReady` returns, and has the same result (members, among them the datagram
RTT, and the sequence of calls) as on the queue of those pending datagrams whose
sender address equals `qhaRemote` and whose sender port equals `iPort`; a datagram
from elsewhere changes no member, makes no call, and can be removed from anywhere in
the queue without changing the result. -/
theorem udpReady_peer_filter (env : Env) (g : Global) (sh : ServerHandler)
    (sock : QUdpSocket) (hopen : sh.qusUdp = some sock) :
    (∃ r, udpReady env g sh = some r) ∧
    udpReady env g sh =
      udpReady env g
        { sh with qusUdp := some { pending := sock.pending.filter (fromPeer sh) } } ∧
    (∀ d, fromPeer sh d = false → udpDatagram env g sh d = (sh, [])) ∧
    (∀ pre d post, sock.pending = pre ++ d :: post → fromPeer sh d = false →
      udpReady env g sh = udpReady env g { sh with qusUdp := some { pending := pre ++ post } }) := by
  have hsh : sh = { sh with qusUdp := some { pending := sock.pending } } := by
    cases sh; cases sock; simp_all
  have hrun : udpReady env g sh =
      some ({ (udpLoop env g sh sock.pending).1 with qusUdp := some { pending := [] } },
        (udpLoop env g sh sock.pending).2) := by
    conv_lhs => rw [hsh]
    exact udpReady_eq env g sh sock.pending
  refine ⟨⟨_, hrun⟩, ?_, fun d hd => udpDatagram_stranger env g sh d hd, ?_⟩
  · rw [hrun, udpReady_eq, ← udpLoop_filter]
  · intro pre d post hq hd
    rw [hrun, udpReady_eq, udpLoop_filter env g sock.pending, udpLoop_filter env g (pre ++ post),
      hq]
    simp [List.filter_append, hd]

/-- Witness of `udpReady_peer_filter`: on a queue holding a ping from a stranger
(address 5) and then a ping from the recorded peer, only the second one is processed. -/
theorem udpReady_peer_filter_witness :
    udpReady sampleEnv sampleGlobal sampleQueued =
      udpReady sampleEnv sampleGlobal
        { sampleQueued with qusUdp := some { pending :=
            [{ data := [22, 0, 400], senderAddr := 77, senderPort := 64738 }] } } ∧
    udpReady sampleEnv sampleGlobal sampleQueued =
      some ({ sampleConnected with uiUDPPing := 600, nElapsed := 1 }, []) := by
  have h := (udpReady_peer_filter sampleEnv sampleGlobal sampleQueued
    { pending := [{ data := [22, 0, 100], senderAddr := 5, senderPort := 64738 },
                  { data := [22, 0, 400], senderAddr := 77, senderPort := 64738 }] } rfl).2.1
  exact ⟨h.trans rfl, h.trans (by decide)⟩

/-! ## Certificate pinning -/

/-- C4: in the state set up by the first part of `run` (stored error list cleared),
`setSslErrors` returns; it calls `proceedAnyway` and leaves the stored error list
empty exactly when the chain is non-empty and the hex SHA-1 digest of its first
certificate equals the digest the database returns for `(qsHostName, iPort)`; in
every other case it makes no call and the stored error list is the supplied one. -/
theorem setSslErrors_pinning (env : Env) (sh : ServerHandler) (conn : Connection)
    (errors : List QSslError) :
    ∃ sh1 effs, setSslErrors env (runStart sh conn).1 errors = some (sh1, effs) ∧
      ((effs = [Effect.proceedAnyway] ∧ sh1.qlErrors = []) ↔
        (∃ leaf rest, conn.peerCertificateChain = leaf :: rest ∧
          env.digestSha1Hex leaf = env.getDigest sh.qsHostName sh.iPort)) ∧
      ((¬ ∃ leaf rest, conn.peerCertificateChain = leaf :: rest ∧
          env.digestSha1Hex leaf = env.getDigest sh.qsHostName sh.iPort) →
        effs = [] ∧ sh1.qlErrors = errors) := by
  cases hch : conn.peerCertificateChain with
  | nil =>
    have hrun : setSslErrors env (runStart sh conn).1 errors =
        some ({ (runStart sh conn).1 with qscCert := [], qlErrors := errors }, []) := by
      simp [setSslErrors, runStart, hch]
    exact ⟨_, _, hrun, by simp, by simp⟩
  | cons leaf rest =>
    by_cases hd : env.digestSha1Hex leaf = env.getDigest sh.qsHostName sh.iPort
    · have hrun : setSslErrors env (runStart sh conn).1 errors =
          some ({ (runStart sh conn).1 with qscCert := leaf :: rest },
            [Effect.proceedAnyway]) := by
        simp [setSslErrors, runStart, hch, hd]
      exact ⟨_, _, hrun, by simp [hd, runStart], by simp [hd]⟩
    · have hrun : setSslErrors env (runStart sh conn).1 errors =
          some ({ (runStart sh conn).1 with qscCert := leaf :: rest, qlErrors := errors },
            []) := by
        simp [setSslErrors, runStart, hch, hd]
      exact ⟨_, _, hrun, by simp [hd], by simp⟩

/-! ## Marshalling of outbound sends -/

/-- C5, as stated, fails: a voice frame sent with `forceTCP = false` while the datagram
socket is open and TCP compatibility is off is written to the datagram socket by
`sendMessage` itself, and no request is posted to the handler's event queue. -/
theorem sendMessage_direct_write_counterexample :
    sendMessage sampleEnv sampleGlobal sampleConnected
        { Message.ofType 2 with iSeq := 4, qbaSpeexPacket := [1, 2, 3] } false =
      [Effect.writeDatagram [2, 9, 0, 4, 1, 2, 3] 77 64738] ∧
    ¬ ∃ qbaMsg bFlush, sendMessage sampleEnv sampleGlobal sampleConnected
        { Message.ofType 2 with iSeq := 4, qbaSpeexPacket := [1, 2, 3] } false =
      [Effect.postEvent Receiver.self qbaMsg bFlush] := by
  have h : sendMessage sampleEnv sampleGlobal sampleConnected
      { Message.ofType 2 with iSeq := 4, qbaSpeexPacket := [1, 2, 3] } false =
      [Effect.writeDatagram [2, 9, 0, 4, 1, 2, 3] 77 64738] := by decide
  refine ⟨h, ?_⟩
  rw [h]
  simp

/-- C5, amended: `sendMessage` makes no call on the control connection. When the
message is not one for the datagram socket (`forceTCP` set, or a kind other than
voice-frame and ping, or TCP compatibility on) its only channel-related effect is one
request (the serialized bytes and a flush flag) posted to the handler's own event
queue, and the connection is touched when `customEvent` processes that request: on a
live connection the non-empty bytes are sent, then flushed if the flag is set. A
voice-frame or ping message with `forceTCP = false` and TCP compatibility off is
instead written to the open datagram socket by `sendMessage` itself, and no request
is posted. -/
theorem sendMessage_marshalling (env : Env) (g : Global) (sh : ServerHandler)
    (mMsg : Message) (forceTCP : Bool) :
    (∀ e ∈ sendMessage env g sh mMsg forceTCP,
      (∃ qbaMsg bFlush, e = Effect.postEvent Receiver.self qbaMsg bFlush) ∨
      (∃ data, e = Effect.writeDatagram data sh.qhaRemote sh.iPort)) ∧
    (¬ ((mMsg.messageType = env.types.Speex ∨ mMsg.messageType = env.types.Ping) ∧
        forceTCP = false ∧ g.bTCPCompat = false) →
      ∃ bFlush, sendMessage env g sh mMsg forceTCP =
          [Effect.postEvent Receiver.self
            (env.messageToNetwork { mMsg with uiSession := g.uiSession }) bFlush] ∧
        ∀ (SERVERSEND_EVENT : Nat) (sh1 : ServerHandler) (c : Connection),
          sh1.cConnection = some c →
          env.messageToNetwork { mMsg with uiSession := g.uiSession } ≠ [] →
          customEvent SERVERSEND_EVENT sh1 SERVERSEND_EVENT
              (env.messageToNetwork { mMsg with uiSession := g.uiSession }) bFlush =
            Effect.connSendMessage (env.messageToNetwork { mMsg with uiSession := g.uiSession })
              :: (if bFlush then [Effect.connForceFlush] else [])) ∧
    (((mMsg.messageType = env.types.Speex ∨ mMsg.messageType = env.types.Ping) ∧
        forceTCP = false ∧ g.bTCPCompat = false) →
      ∀ sock, sh.qusUdp = some sock →
        sendMessage env g sh mMsg forceTCP =
          [Effect.writeDatagram (env.messageToNetworkPds { mMsg with uiSession := g.uiSession })
            sh.qhaRemote sh.iPort]) := by
  refine ⟨?_, ?_, ?_⟩
  · intro e he
    unfold sendMessage at he
    dsimp only at he
    split at he
    · split at he
      · simp at he
      · right; exact ⟨_, by simpa using he⟩
    · left; exact ⟨_, _, by simpa using he⟩
  · intro hk
    refine ⟨!forceTCP && (mMsg.messageType == env.types.Speex ||
      mMsg.messageType == env.types.Ping), ?_, ?_⟩
    · have hcond : ((!forceTCP && (mMsg.messageType == env.types.Speex ||
          mMsg.messageType == env.types.Ping)) && !g.bTCPCompat) = false := by
        cases hf : forceTCP <;> cases hc : g.bTCPCompat <;> simp_all
      simp only [sendMessage, hcond]
      simp
    · intro ev sh1 c hc hne
      have hlen : 0 < (env.messageToNetwork { mMsg with uiSession := g.uiSession }).length :=
        List.length_pos.mpr hne
      simp [customEvent, customEventSend, hc, hlen]
  · rintro ⟨hty, hf, hc⟩ sock hopen
    rcases hty with hty | hty <;> simp [sendMessage, hopen, hty, hf, hc]

/-- Witness of `sendMessage_marshalling`: a ping with `forceTCP` set is posted to the
handler's queue with the flush flag off. -/
theorem sendMessage_marshalling_witness :
    ∃ bFlush, sendMessage sampleEnv sampleGlobal sampleConnected samplePing true =
      [Effect.postEvent Receiver.self
        (sampleEnv.messageToNetwork { samplePing with uiSession := sampleGlobal.uiSession })
        bFlush] :=
  let ⟨b, hb, _⟩ := (sendMessage_marshalling sampleEnv sampleGlobal sampleConnected
    samplePing true).2.1 (by decide)
  ⟨b, hb⟩

/-! ## Inbound dispatch -/

/-- The enumerators `Ping` and `Speex` have different values. -/
theorem MessageTypes.ping_ne_speex (t : MessageTypes) : t.Ping ≠ t.Speex := by
  have h := t.distinct
  simp only [List.nodup_cons, List.mem_cons] at h
  intro he
  exact h.1 (Or.inl he.symm)

/-- The enumerator `ServerLeave` differs from `Speex` and from `Ping`. -/
theorem MessageTypes.leave_ne (t : MessageTypes) :
    t.ServerLeave ≠ t.Speex ∧ t.ServerLeave ≠ t.Ping := by
  have h := t.distinct
  simp only [List.nodup_cons, List.mem_cons] at h
  exact ⟨fun he => h.1 (Or.inr (Or.inl he.symm)), fun he => h.2.1 (Or.inl he.symm)⟩

/-- With a single datagram pending, `udpReady` runs one turn of its loop. -/
theorem udpReady_single (env : Env) (g : Global) (sh : ServerHandler) (d : Datagram)
    (h : sh.qusUdp = some { pending := [d] }) :
    udpReady env g sh =
      some ({ (udpDatagram env g sh d).1 with qusUdp := some { pending := [] } },
        (udpDatagram env g sh d).2) := by
  simp [udpReady, h, udpLoop]

/-- A datagram from the recorded peer passes the address check of the loop. -/
theorem fromPeer_check (sh : ServerHandler) (d : Datagram) (h : fromPeer sh d = true) :
    (!(d.senderAddr == sh.qhaRemote) || ((d.senderPort : Int) != sh.iPort)) = false := by
  simp only [fromPeer, Bool.and_eq_true] at h
  simp [h.1, bne, h.2]

/-- The calls `message` makes for a voice frame. -/
theorem message_speex (env : Env) (g : Global) (sh : ServerHandler) (qbaMsg : QByteArray)
    (mMsg : Message) (hdec : env.networkToMessage qbaMsg = some mMsg)
    (hty : mMsg.messageType = env.types.Speex) :
    message env g sh qbaMsg =
      (sh, if g.ao then
            match g.players mMsg.uiSession with
            | some pl =>
              if pl.bLocalMute then [] else
                [Effect.addFrameToBuffer pl mMsg.qbaSpeexPacket mMsg.iSeq]
            | none => [Effect.removeBuffer none]
          else []) := by
  simp only [message, hdec, hty, beq_self_eq_true, if_true]
  cases g.ao with
  | false => simp
  | true =>
    cases hp : g.players mMsg.uiSession with
    | none => simp
    | some pl => cases hm : pl.bLocalMute <;> simp [hm]

/-- The calls `message` makes for a message that is neither a voice frame nor a
ping. -/
theorem message_other (env : Env) (g : Global) (sh : ServerHandler) (qbaMsg : QByteArray)
    (mMsg : Message) (hdec : env.networkToMessage qbaMsg = some mMsg)
    (hs : mMsg.messageType ≠ env.types.Speex) (hp : mMsg.messageType ≠ env.types.Ping) :
    message env g sh qbaMsg =
      (sh, (if mMsg.messageType == env.types.ServerLeave then
              (if g.ao then [Effect.removeBuffer (g.players mMsg.uiSession)] else [])
            else []) ++ [Effect.postEvent Receiver.mw qbaMsg false]) := by
  simp [message, hdec, hs, hp]

/-- C8: a buffer received on the control connection that decodes to a message whose
kind is neither voice-frame nor ping changes no member (so neither RTT) and posts
exactly one event to the main window, carrying the received buffer with the flush
flag off; for a `ServerLeave` message with an audio output present, `removeBuffer`
for the player of the message's session is called before the event is posted. Ping
and voice-frame messages post no event. -/
theorem control_message_forwarding (env : Env) (g : Global) (sh : ServerHandler)
    (qbaMsg : QByteArray) (mMsg : Message) (hdec : env.networkToMessage qbaMsg = some mMsg) :
    (mMsg.messageType ≠ env.types.Speex → mMsg.messageType ≠ env.types.Ping →
      (message env g sh qbaMsg).1 = sh ∧
      (mMsg.messageType = env.types.ServerLeave → g.ao = true →
        (message env g sh qbaMsg).2 =
          [Effect.removeBuffer (g.players mMsg.uiSession),
           Effect.postEvent Receiver.mw qbaMsg false]) ∧
      (¬ (mMsg.messageType = env.types.ServerLeave ∧ g.ao = true) →
        (message env g sh qbaMsg).2 = [Effect.postEvent Receiver.mw qbaMsg false])) ∧
    (mMsg.messageType = env.types.Speex ∨ mMsg.messageType = env.types.Ping →
      ∀ r q b, Effect.postEvent r q b ∉ (message env g sh qbaMsg).2) := by
  refine ⟨?_, ?_⟩
  · intro hs hp
    rw [message_other env g sh qbaMsg mMsg hdec hs hp]
    refine ⟨rfl, ?_, ?_⟩
    · intro hl hao; simp [hl, hao]
    · intro hn
      by_cases hl : mMsg.messageType = env.types.ServerLeave
      · have hao : g.ao = false := by
          cases h : g.ao with
          | false => rfl
          | true => exact absurd ⟨hl, h⟩ hn
        simp [hao]
      · simp [hl]
  · intro hk r q b
    rcases hk with hty | hty
    · rw [message_speex env g sh qbaMsg mMsg hdec hty]
      cases g.ao with
      | false => simp
      | true =>
        cases hp : g.players mMsg.uiSession with
        | none => simp
        | some pl => cases hm : pl.bLocalMute <;> simp [hm]
    · simp [message, hdec, hty, env.types.ping_ne_speex]

/-- Witness of `control_message_forwarding`: a `ServerLeave` message for the known
player of session 3. -/
theorem control_message_forwarding_witness :
    (message sampleEnv sampleGlobal sampleConnected [5, 3, 0, 0]).2 =
      [Effect.removeBuffer (some { uiSession := 3, bLocalMute := false }),
       Effect.postEvent Receiver.mw [5, 3, 0, 0] false] :=
  ((control_message_forwarding sampleEnv sampleGlobal sampleConnected [5, 3, 0, 0]
    { Message.ofType 5 with uiSession := 3 } rfl).1 (by decide) (by decide)).2.1 rfl rfl

/-- C9, as stated, fails: the same `ServerLeave` message for the known player of
session 3 is forwarded to the main window, after a `removeBuffer` call, when it
arrives on the control connection, and makes no call at all when it arrives as a
datagram from the recorded peer. -/
theorem udpReady_other_kind_counterexample :
    fromPeer sampleConnected { data := [5, 3, 0, 0], senderAddr := 77, senderPort := 64738 } =
      true ∧
    message sampleEnv sampleGlobal sampleConnected [5, 3, 0, 0] =
      (sampleConnected,
        [Effect.removeBuffer (some { uiSession := 3, bLocalMute := false }),
         Effect.postEvent Receiver.mw [5, 3, 0, 0] false]) ∧
    udpReady sampleEnv sampleGlobal
        { sampleConnected with qusUdp := some { pending :=
            [{ data := [5, 3, 0, 0], senderAddr := 77, senderPort := 64738 }] } } =
      some (sampleConnected, []) := by
  decide

/-- C9, amended: `udpReady` dispatches only ping and voice-frame datagrams: a datagram
from the recorded peer whose type is neither changes no member and makes no call,
so nothing is forwarded to the main window and no audio state is purged. -/
theorem udpReady_other_kind_ignored (env : Env) (g : Global) (sh : ServerHandler)
    (d : Datagram) (msgType : Nat) (s1 : QByteArray)
    (hpeer : fromPeer sh d = true) (h1 : env.pdsReadU32 d.data = (msgType, s1))
    (hping : msgType ≠ env.types.Ping) (hspeex : msgType ≠ env.types.Speex) :
    udpDatagram env g sh d = (sh, []) ∧
    (sh.qusUdp = some { pending := [d] } →
      udpReady env g sh = some ({ sh with qusUdp := some { pending := [] } }, [])) := by
  have hturn : udpDatagram env g sh d = (sh, []) := by
    simp [udpDatagram, fromPeer_check sh d hpeer, h1, hping, hspeex]
  refine ⟨hturn, fun hq => ?_⟩
  rw [udpReady_single env g sh d hq, hturn]

/-- Witness of `udpReady_other_kind_ignored`: a `ServerLeave` datagram from the
recorded peer. -/
theorem udpReady_other_kind_ignored_witness :
    udpDatagram sampleEnv sampleGlobal sampleConnected
        { data := [5, 3, 0, 0], senderAddr := 77, senderPort := 64738 } =
      (sampleConnected, []) :=
  (udpReady_other_kind_ignored sampleEnv sampleGlobal sampleConnected
    { data := [5, 3, 0, 0], senderAddr := 77, senderPort := 64738 } 5 [3, 0, 0]
    (by decide) rfl (by decide) (by decide)).1

/-- C10, as stated, fails: when a `ServerLeave` message for the known player of
session 3 is dispatched, the player leaves the table, and a voice frame of session 3
is dispatched afterwards, `removeBuffer` is called twice, the second time with the
null pointer. -/
theorem late_voice_frame_counterexample :
    removeBufferCalls
        ((message sampleEnv sampleGlobal sampleConnected [5, 3, 0, 0]).2 ++
          (message sampleEnv sampleGlobalAfterLeave
            (message sampleEnv sampleGlobal sampleConnected [5, 3, 0, 0]).1
            [2, 3, 0, 5, 10, 11]).2) =
      [some { uiSession := 3, bLocalMute := false }, none] ∧
    (removeBufferCalls
        ((message sampleEnv sampleGlobal sampleConnected [5, 3, 0, 0]).2 ++
          (message sampleEnv sampleGlobalAfterLeave
            (message sampleEnv sampleGlobal sampleConnected [5, 3, 0, 0]).1
            [2, 3, 0, 5, 10, 11]).2)).length ≠ 1 := by
  decide

/-- C10, amended: when `message` dispatches a `ServerLeave` message for a known player
of session `s` and, after that session has left the player table, a voice frame of
session `s` (audio output present throughout), the calls made are, in order,
`removeBuffer` for that player, the event for the main window, and `removeBuffer`
with the null pointer: no frame reaches the audio output, and `removeBuffer` is
called twice, once naming the player and once with the null pointer. -/
theorem late_voice_frame (env : Env) (g g1 : Global) (sh : ServerHandler)
    (qbaLeave qbaVoice : QByteArray) (mLeave mVoice : Message) (pl : Player)
    (hdecLeave : env.networkToMessage qbaLeave = some mLeave)
    (hleave : mLeave.messageType = env.types.ServerLeave)
    (hknown : g.players mLeave.uiSession = some pl) (hao : g.ao = true)
    (hdecVoice : env.networkToMessage qbaVoice = some mVoice)
    (hvoice : mVoice.messageType = env.types.Speex)
    (hsame : mVoice.uiSession = mLeave.uiSession)
    (hgone : g1.players mLeave.uiSession = none) (hao1 : g1.ao = true) :
    (message env g sh qbaLeave).2 ++
        (message env g1 (message env g sh qbaLeave).1 qbaVoice).2 =
      [Effect.removeBuffer (some pl), Effect.postEvent Receiver.mw qbaLeave false,
       Effect.removeBuffer none] ∧
    removeBufferCalls ((message env g sh qbaLeave).2 ++
        (message env g1 (message env g sh qbaLeave).1 qbaVoice).2) = [some pl, none] ∧
    (∀ p pkt iSeq, Effect.addFrameToBuffer p pkt iSeq ∉
      (message env g sh qbaLeave).2 ++
        (message env g1 (message env g sh qbaLeave).1 qbaVoice).2) := by
  have h1 : message env g sh qbaLeave =
      (sh, [Effect.removeBuffer (some pl), Effect.postEvent Receiver.mw qbaLeave false]) := by
    rw [message_other env g sh qbaLeave mLeave hdecLeave (hleave ▸ env.types.leave_ne.1)
      (hleave ▸ env.types.leave_ne.2)]
    simp [hleave, hao, hknown]
  have h2 : message env g1 sh qbaVoice = (sh, [Effect.removeBuffer none]) := by
    rw [message_speex env g1 sh qbaVoice mVoice hdecVoice hvoice, hsame, hgone, hao1]
    rfl
  rw [h1]
  simp only [h2]
  refine ⟨rfl, rfl, ?_⟩
  intro p pkt iSeq
  simp

/-- Witness of `late_voice_frame`: the sample player of session 3 leaves, then one of
its voice frames arrives. -/
theorem late_voice_frame_witness :
    (message sampleEnv sampleGlobal sampleConnected [5, 3, 0, 0]).2 ++
        (message sampleEnv sampleGlobalAfterLeave
          (message sampleEnv sampleGlobal sampleConnected [5, 3, 0, 0]).1
          [2, 3, 0, 5, 10, 11]).2 =
      [Effect.removeBuffer (some { uiSession := 3, bLocalMute := false }),
       Effect.postEvent Receiver.mw [5, 3, 0, 0] false, Effect.removeBuffer none] :=
  (late_voice_frame sampleEnv sampleGlobal sampleGlobalAfterLeave sampleConnected
    [5, 3, 0, 0] [2, 3, 0, 5, 10, 11] { Message.ofType 5 with uiSession := 3 }
    { Message.ofType 2 with uiSession := 3, iSeq := 5, qbaSpeexPacket := [10, 11] }
    { uiSession := 3, bLocalMute := false } rfl rfl rfl rfl rfl rfl rfl rfl rfl).1

/-! ## Processing of marshalled requests -/

/-- C11: `customEvent` on a send request: with a live connection and a non-empty
payload, that payload is sent on the connection, followed by `forceFlush` exactly
when the flush flag is set, and nothing else is called; with a live connection and
an empty payload the only call is `disconnect` on the connection; with no connection
(as after the constructor, and after the last part of `run`) nothing is called; an
event of another type calls nothing. `ServerHandler::disconnect` posts a request
with an empty payload to the handler itself. -/
theorem customEvent_send_request (SERVERSEND_EVENT : Nat) (sh : ServerHandler)
    (qbaMsg : QByteArray) (bFlush : Bool) :
    (∀ c, sh.cConnection = some c → qbaMsg ≠ [] →
      customEvent SERVERSEND_EVENT sh SERVERSEND_EVENT qbaMsg true =
          [Effect.connSendMessage qbaMsg, Effect.connForceFlush] ∧
      customEvent SERVERSEND_EVENT sh SERVERSEND_EVENT qbaMsg false =
          [Effect.connSendMessage qbaMsg]) ∧
    (∀ c, sh.cConnection = some c →
      customEvent SERVERSEND_EVENT sh SERVERSEND_EVENT [] bFlush = [Effect.connDisconnect]) ∧
    (sh.cConnection = none →
      customEvent SERVERSEND_EVENT sh SERVERSEND_EVENT qbaMsg bFlush = []) ∧
    customEvent SERVERSEND_EVENT (ServerHandler.ServerHandler sh) SERVERSEND_EVENT qbaMsg
      bFlush = [] ∧
    (∀ sh1 effs, runEnd sh = some (sh1, effs) →
      customEvent SERVERSEND_EVENT sh1 SERVERSEND_EVENT qbaMsg bFlush = []) ∧
    (∀ evtType, evtType ≠ SERVERSEND_EVENT →
      customEvent SERVERSEND_EVENT sh evtType qbaMsg bFlush = []) ∧
    disconnect = [Effect.postEvent Receiver.self [] false] := by
  refine ⟨?_, ?_, ?_, ?_, ?_, ?_, rfl⟩
  · intro c hc hne
    have hlen : 0 < qbaMsg.length := List.length_pos.mpr hne
    simp [customEvent, customEventSend, hc, hlen]
  · intro c hc
    simp [customEvent, customEventSend, hc]
  · intro hc
    simp [customEvent, customEventSend, hc]
  · simp [customEvent, customEventSend, ServerHandler.ServerHandler]
  · intro sh1 effs hrun
    cases hc : sh.cConnection with
    | none => simp [runEnd, hc] at hrun
    | some c =>
      simp only [runEnd, hc, Option.some.injEq, Prod.mk.injEq] at hrun
      rw [← hrun.1]
      simp [customEvent, customEventSend]
  · intro evtType hne
    simp [customEvent, hne]

/-- Witness of `customEvent_send_request`: the request posted by `disconnect`,
processed on the sample connected handler, disconnects the connection. -/
theorem customEvent_send_request_witness :
    customEvent 1000 sampleConnected 1000 [] false = [Effect.connDisconnect] :=
  (customEvent_send_request 1000 sampleConnected [] false).2.1 sampleConnection rfl

/-! ## The ticker -/

/-- C12: with the datagram socket open and TCP compatibility off, `sendPing` reads the
clock once and makes exactly two calls: it posts the ping to the handler's queue for
the control connection and writes the ping as a datagram to `(qhaRemote, iPort)`,
both serialized from the same message, whose timestamp is the clock value read. In
every state and configuration the first call of `sendPing` is that posted ping. -/
theorem sendPing_redundant (env : Env) (g : Global) (sh : ServerHandler) (sock : QUdpSocket)
    (hopen : sh.qusUdp = some sock) (hcompat : g.bTCPCompat = false) :
    (sendPing env g sh).1 = { sh with nElapsed := sh.nElapsed + 1 } ∧
    (sendPing env g sh).2 =
      [Effect.postEvent Receiver.self
         (env.messageToNetwork { Message.ofType env.types.Ping with
           uiTimestamp := env.elapsed sh.nElapsed, uiSession := g.uiSession }) false,
       Effect.writeDatagram
         (env.messageToNetworkPds { Message.ofType env.types.Ping with
           uiTimestamp := env.elapsed sh.nElapsed, uiSession := g.uiSession })
         sh.qhaRemote sh.iPort] ∧
    (∀ (g1 : Global) (sh1 : ServerHandler), ∃ rest,
      (sendPing env g1 sh1).2 =
        Effect.postEvent Receiver.self
          (env.messageToNetwork { Message.ofType env.types.Ping with
            uiTimestamp := env.elapsed sh1.nElapsed, uiSession := g1.uiSession }) false
          :: rest) := by
  refine ⟨rfl, ?_, ?_⟩
  · simp [sendPing, sendMessage, hopen, hcompat, Message.ofType]
  · intro g1 sh1
    exact ⟨_, by simp [sendPing, sendMessage, Message.ofType]; rfl⟩

/-- Witness of `sendPing_redundant`: a tick on the sample connected handler, whose
clock reads 1000. -/
theorem sendPing_redundant_witness :
    (sendPing sampleEnv sampleGlobal sampleConnected).2 =
      [Effect.postEvent Receiver.self [22, 9, 1000, 0] false,
       Effect.writeDatagram [22, 9, 1000, 0] 77 64738] :=
  (sendPing_redundant sampleEnv sampleGlobal sampleConnected { pending := [] } rfl rfl).2.1

/-! ## The invariant of the datagram socket -/

/-- One turn of the loop of `udpReady` changes neither the connection nor the
datagram socket. -/
theorem udpDatagram_frame (env : Env) (g : Global) (sh : ServerHandler) (d : Datagram) :
    (udpDatagram env g sh d).1.cConnection = sh.cConnection ∧
    (udpDatagram env g sh d).1.qusUdp = sh.qusUdp := by
  unfold udpDatagram
  split
  · exact ⟨rfl, rfl⟩
  · dsimp only
    split
    · exact ⟨rfl, rfl⟩
    · split
      · split
        · split
          · split <;> exact ⟨rfl, rfl⟩
          · exact ⟨rfl, rfl⟩
        · exact ⟨rfl, rfl⟩
      · exact ⟨rfl, rfl⟩

/-- The loop of `udpReady` changes neither the connection nor the recorded peer
address. -/
theorem udpLoop_frame (env : Env) (g : Global) (ds : List Datagram) :
    ∀ sh : ServerHandler,
      (udpLoop env g sh ds).1.cConnection = sh.cConnection ∧
      (udpLoop env g sh ds).1.qhaRemote = sh.qhaRemote := by
  induction ds with
  | nil => intro sh; exact ⟨rfl, rfl⟩
  | cons d ds ih =>
    intro sh
    simp only [udpLoop]
    rw [(ih (udpDatagram env g sh d).1).1, (ih (udpDatagram env g sh d).1).2,
      (udpDatagram_frame env g sh d).1, (udpDatagram_peer env g sh d).1]
    exact ⟨rfl, rfl⟩

/-- The slot `message` changes neither the connection, nor the datagram socket, nor
the recorded peer address. -/
theorem message_frame (env : Env) (g : Global) (sh : ServerHandler) (qbaMsg : QByteArray) :
    (message env g sh qbaMsg).1.cConnection = sh.cConnection ∧
    (message env g sh qbaMsg).1.qusUdp = sh.qusUdp ∧
    (message env g sh qbaMsg).1.qhaRemote = sh.qhaRemote := by
  unfold message
  split
  · exact ⟨rfl, rfl, rfl⟩
  · dsimp only
    split
    · split
      · split
        · split <;> exact ⟨rfl, rfl, rfl⟩
        · exact ⟨rfl, rfl, rfl⟩
      · exact ⟨rfl, rfl, rfl⟩
    · split <;> exact ⟨rfl, rfl, rfl⟩

/-- A newly constructed handler satisfies the invariant: it has no datagram socket. -/
theorem udpInvariant_new (sh0 : ServerHandler) :
    udpInvariant (ServerHandler.ServerHandler sh0) := by
  intro sock h
  simp [ServerHandler.ServerHandler] at h

/-- Every happening preserves the invariant of the datagram socket. -/
theorem step_udpInvariant (env : Env) (g : Global) (sh sh1 : ServerHandler) (op : Op)
    (hinv : udpInvariant sh) (hstep : step env g sh op = some sh1) : udpInvariant sh1 := by
  cases op with
  | setConnectionInfo host port username pw =>
    simp only [step, Option.some.injEq] at hstep
    subst hstep
    exact hinv
  | runStart conn =>
    cases hc : sh.cConnection with
    | some c => simp [step, hc] at hstep
    | none =>
      have hnone : sh.qusUdp = none := by
        cases hq : sh.qusUdp with
        | none => rfl
        | some sock =>
          obtain ⟨c, hc1, _⟩ := hinv sock hq
          rw [hc] at hc1
          cases hc1
      cases he : conn.encrypted with
      | true => simp [step, hc, he] at hstep
      | false =>
        simp only [step, hc, he, Bool.false_eq_true, if_false, Option.some.injEq] at hstep
        subst hstep
        intro sock hq
        simp [runStart, hnone] at hq
  | setSslErrors errors =>
    cases hc : sh.cConnection with
    | none => simp [step, setSslErrors, hc] at hstep
    | some c =>
      simp only [step, setSslErrors, hc] at hstep
      split at hstep <;>
        · simp only [Option.map_some', Option.some.injEq] at hstep
          subst hstep
          intro sock hq
          obtain ⟨c1, hc1, h2, h3⟩ := hinv sock hq
          exact ⟨c1, hc.symm.trans hc1, h2, h3⟩
  | encrypted =>
    cases hc : sh.cConnection with
    | none => simp [step, serverConnectionConnected, hc] at hstep
    | some c =>
      simp only [step, serverConnectionConnected, hc, Option.map_some',
        Option.some.injEq] at hstep
      subst hstep
      intro sock _
      exact ⟨{ c with encrypted := true }, rfl, rfl, rfl⟩
  | datagram d =>
    cases hq : sh.qusUdp with
    | none => simp [step, hq] at hstep
    | some sock0 =>
      simp only [step, hq, Option.some.injEq] at hstep
      subst hstep
      intro sock _
      exact hinv sock0 hq
  | udpReady =>
    cases hq : sh.qusUdp with
    | none => simp [step, udpReady, hq] at hstep
    | some sock0 =>
      simp only [step, udpReady, hq, Option.map_some', Option.some.injEq] at hstep
      subst hstep
      intro sock _
      obtain ⟨c, hc, h2, h3⟩ := hinv sock0 hq
      refine ⟨c, ?_, h2, ?_⟩
      · exact (udpLoop_frame env g sock0.pending sh).1.trans hc
      · exact (udpLoop_frame env g sock0.pending sh).2.trans h3
  | message qbaMsg =>
    cases hc : sh.cConnection with
    | none => simp [step, hc] at hstep
    | some c0 =>
      simp only [step, hc, Option.some.injEq] at hstep
      subst hstep
      intro sock hq
      rw [(message_frame env g sh qbaMsg).2.1] at hq
      obtain ⟨c, hc1, h2, h3⟩ := hinv sock hq
      exact ⟨c, (message_frame env g sh qbaMsg).1.trans hc1, h2,
        (message_frame env g sh qbaMsg).2.2.trans h3⟩
  | sendMessage mMsg forceTCP =>
    simp only [step, Option.some.injEq] at hstep
    subst hstep
    exact hinv
  | customEvent evtType qbaMsg bFlush =>
    simp only [step, Option.some.injEq] at hstep
    subst hstep
    exact hinv
  | sendPing =>
    cases hc : sh.cConnection with
    | none => simp [step, hc] at hstep
    | some c0 =>
      simp only [step, hc, Option.some.injEq] at hstep
      subst hstep
      exact hinv
  | serverConnectionClosed reason =>
    cases hc : sh.cConnection with
    | none => simp [step, hc] at hstep
    | some c0 =>
      simp only [step, hc, Option.some.injEq] at hstep
      subst hstep
      exact hinv
  | runEnd =>
    cases hc : sh.cConnection with
    | none => simp [step, runEnd, hc] at hstep
    | some c0 =>
      simp only [step, runEnd, hc, Option.map_some', Option.some.injEq] at hstep
      subst hstep
      intro sock hq
      simp at hq

/-- A sequence of happenings preserves the invariant of the datagram socket. -/
theorem execOps_udpInvariant (env : Env) (ops : List (Global × Op)) :
    ∀ sh sh1 : ServerHandler, udpInvariant sh → execOps env sh ops = some sh1 →
      udpInvariant sh1 := by
  induction ops with
  | nil =>
    intro sh sh1 hinv h
    simp only [execOps, Option.some.injEq] at h
    subst h
    exact hinv
  | cons gop rest ih =>
    intro sh sh1 hinv h
    obtain ⟨g, op⟩ := gop
    cases hs : step env g sh op with
    | none => simp [execOps, hs] at h
    | some sh2 =>
      simp only [execOps, hs] at h
      exact ih sh2 sh1 (step_udpInvariant env g sh sh2 op hinv hs) h

/-- Every reachable state satisfies the invariant of the datagram socket. -/
theorem reachable_udpInvariant (env : Env) (sh : ServerHandler) (h : Reachable env sh) :
    udpInvariant sh := by
  obtain ⟨sh0, ops, hops⟩ := h
  exact execOps_udpInvariant env ops _ sh (udpInvariant_new sh0) hops

/-- C13, as stated, fails: after the first part of `run` and before the handshake, a
tick of the ticker posts a ping to the handler's queue, and `customEvent` sends it
on the control connection, which exists since the start of `run`. -/
theorem ping_before_handshake_counterexample :
    execOps sampleEnv (ServerHandler.ServerHandler sampleIdle)
        [(sampleGlobal, Op.runStart sampleFreshConnection)] = some sampleConnecting ∧
    sampleConnecting.cConnection = some sampleFreshConnection ∧
    sampleFreshConnection.encrypted = false ∧
    (sendPing sampleEnv sampleGlobal sampleConnecting).2 =
      [Effect.postEvent Receiver.self [22, 9, 1000, 0] false] ∧
    customEvent 1000 sampleConnecting 1000 [22, 9, 1000, 0] false =
      [Effect.connSendMessage [22, 9, 1000, 0]] := by
  decide

/-- C13, amended: in every reachable state in which the control connection exists and
has not completed its handshake, the datagram socket does not exist and a tick writes
no ping datagram; the tick does post the ping to the handler's queue (once, and a
second time with the flush flag when TCP compatibility is on), and `customEvent`
sends the posted ping on the control connection. In every reachable state without a
control connection (before `run` and after its last part) there is no datagram
socket either, no ticker, a call of `sendPing` would write no datagram, and
`customEvent` does nothing with a posted request. -/
theorem ping_before_handshake (env : Env) (g : Global) (sh : ServerHandler) (c : Connection)
    (hreach : Reachable env sh) (hconn : sh.cConnection = some c)
    (hplain : c.encrypted = false) :
    sh.qusUdp = none ∧
    (∀ data addr port, Effect.writeDatagram data addr port ∉ (sendPing env g sh).2) ∧
    (sendPing env g sh).2 =
      Effect.postEvent Receiver.self
        (env.messageToNetwork { Message.ofType env.types.Ping with
          uiTimestamp := env.elapsed sh.nElapsed, uiSession := g.uiSession }) false ::
      (if g.bTCPCompat then
        [Effect.postEvent Receiver.self
          (env.messageToNetwork { Message.ofType env.types.Ping with
            uiTimestamp := env.elapsed sh.nElapsed, uiSession := g.uiSession }) true]
       else []) ∧
    (∀ SERVERSEND_EVENT : Nat,
      env.messageToNetwork { Message.ofType env.types.Ping with
          uiTimestamp := env.elapsed sh.nElapsed, uiSession := g.uiSession } ≠ [] →
      customEvent SERVERSEND_EVENT sh SERVERSEND_EVENT
          (env.messageToNetwork { Message.ofType env.types.Ping with
            uiTimestamp := env.elapsed sh.nElapsed, uiSession := g.uiSession }) false =
        [Effect.connSendMessage
          (env.messageToNetwork { Message.ofType env.types.Ping with
            uiTimestamp := env.elapsed sh.nElapsed, uiSession := g.uiSession })]) ∧
    (∀ sh0 : ServerHandler, Reachable env sh0 → sh0.cConnection = none →
      sh0.qusUdp = none ∧ step env g sh0 Op.sendPing = none ∧
      (∀ data addr port, Effect.writeDatagram data addr port ∉ (sendPing env g sh0).2) ∧
      (∀ (SERVERSEND_EVENT : Nat) qbaMsg bFlush,
        customEvent SERVERSEND_EVENT sh0 SERVERSEND_EVENT qbaMsg bFlush = [])) := by
  have hnone : sh.qusUdp = none := by
    cases hq : sh.qusUdp with
    | none => rfl
    | some sock =>
      obtain ⟨c1, hc1, henc, _⟩ := reachable_udpInvariant env sh hreach sock hq
      rw [hconn] at hc1
      cases hc1
      rw [hplain] at henc
      cases henc
  have hcalls : (sendPing env g sh).2 =
      Effect.postEvent Receiver.self
        (env.messageToNetwork { Message.ofType env.types.Ping with
          uiTimestamp := env.elapsed sh.nElapsed, uiSession := g.uiSession }) false ::
      (if g.bTCPCompat then
        [Effect.postEvent Receiver.self
          (env.messageToNetwork { Message.ofType env.types.Ping with
            uiTimestamp := env.elapsed sh.nElapsed, uiSession := g.uiSession }) true]
       else []) := by
    cases hcompat : g.bTCPCompat <;>
      simp [sendPing, sendMessage, hnone, hcompat, Message.ofType]
  refine ⟨hnone, ?_, hcalls, ?_, ?_⟩
  · intro data addr port
    rw [hcalls]
    cases g.bTCPCompat <;> simp
  · intro ev hne
    have hlen : 0 < (env.messageToNetwork { Message.ofType env.types.Ping with
        uiTimestamp := env.elapsed sh.nElapsed, uiSession := g.uiSession }).length :=
      List.length_pos.mpr hne
    simp [customEvent, customEventSend, hconn, hlen]
  · intro sh0 hreach0 hidle
    have hnone0 : sh0.qusUdp = none := by
      cases hq : sh0.qusUdp with
      | none => rfl
      | some sock =>
        obtain ⟨c1, hc1, _⟩ := reachable_udpInvariant env sh0 hreach0 sock hq
        rw [hidle] at hc1
        cases hc1
    refine ⟨hnone0, by simp [step, hidle], ?_, ?_⟩
    · intro data addr port
      cases hcompat : g.bTCPCompat <;>
        simp [sendPing, sendMessage, hnone0, hcompat, Message.ofType]
    · intro ev qbaMsg bFlush
      simp [customEvent, customEventSend, hidle]

/-- Witness of `ping_before_handshake`: the sample handler after the first part of
`run` has no datagram socket. -/
theorem ping_before_handshake_witness : sampleConnecting.qusUdp = none :=
  (ping_before_handshake sampleEnv sampleGlobal sampleConnecting sampleFreshConnection
    ⟨sampleIdle, [(sampleGlobal, Op.runStart sampleFreshConnection)], by decide⟩
    rfl rfl).1

/-- While the thread runs, no happening but the last part of `run` removes the
connection. -/
theorem step_connection_stays (env : Env) (g : Global) (sh sh1 : ServerHandler) (op : Op)
    (hconn : sh.cConnection ≠ none) (hop : op ≠ Op.runEnd)
    (hstep : step env g sh op = some sh1) : sh1.cConnection ≠ none := by
  cases hc : sh.cConnection with
  | none => exact absurd hc hconn
  | some c =>
    cases op with
    | setConnectionInfo host port username pw =>
      simp only [step, Option.some.injEq] at hstep
      subst hstep
      simp [setConnectionInfo, hc]
    | runStart conn => simp [step, hc] at hstep
    | setSslErrors errors =>
      simp only [step, setSslErrors, hc] at hstep
      split at hstep <;>
        · simp only [Option.map_some', Option.some.injEq] at hstep
          subst hstep
          simp
    | encrypted =>
      simp only [step, serverConnectionConnected, hc, Option.map_some',
        Option.some.injEq] at hstep
      subst hstep
      simp
    | datagram d =>
      cases hq : sh.qusUdp with
      | none => simp [step, hq] at hstep
      | some sock0 =>
        simp only [step, hq, Option.some.injEq] at hstep
        subst hstep
        simp [hc]
    | udpReady =>
      cases hq : sh.qusUdp with
      | none => simp [step, udpReady, hq] at hstep
      | some sock0 =>
        simp only [step, udpReady, hq, Option.map_some', Option.some.injEq] at hstep
        subst hstep
        simp [(udpLoop_frame env g sock0.pending sh).1, hc]
    | message qbaMsg =>
      simp only [step, hc, Option.some.injEq] at hstep
      subst hstep
      simp [(message_frame env g sh qbaMsg).1, hc]
    | sendMessage mMsg forceTCP =>
      simp only [step, Option.some.injEq] at hstep
      subst hstep
      simp [hc]
    | customEvent evtType qbaMsg bFlush =>
      simp only [step, Option.some.injEq] at hstep
      subst hstep
      simp [hc]
    | sendPing =>
      simp only [step, hc, Option.some.injEq] at hstep
      subst hstep
      simp [sendPing, hc]
    | serverConnectionClosed reason =>
      simp only [step, hc, Option.some.injEq] at hstep
      subst hstep
      simp [hc]
    | runEnd => exact absurd rfl hop

/-- While the thread runs, the connection exists after every sequence of happenings
that does not contain the last part of `run`. -/
theorem execOps_connection_stays (env : Env) (ops : List (Global × Op)) :
    ∀ sh sh1 : ServerHandler, sh.cConnection ≠ none →
      (∀ gop ∈ ops, gop.2 ≠ Op.runEnd) → execOps env sh ops = some sh1 →
      sh1.cConnection ≠ none := by
  induction ops with
  | nil =>
    intro sh sh1 hconn _ h
    simp only [execOps, Option.some.injEq] at h
    subst h
    exact hconn
  | cons gop rest ih =>
    intro sh sh1 hconn hops h
    obtain ⟨g, op⟩ := gop
    cases hs : step env g sh op with
    | none => simp [execOps, hs] at h
    | some sh2 =>
      simp only [execOps, hs] at h
      have hop : op ≠ Op.runEnd := hops (g, op) (List.mem_cons_self _ _)
      exact ih sh2 sh1 (step_connection_stays env g sh sh2 op hconn hop hs)
        (fun gop hmem => hops gop (List.mem_cons_of_mem _ hmem)) h

/-- The last part of `run` returns whenever the connection exists, and removes the
connection and the datagram socket. -/
theorem runEnd_returns (sh : ServerHandler) (hconn : sh.cConnection ≠ none) :
    runEnd sh =
      some ({ sh with cConnection := none, qusUdp := none },
        [Effect.tickerStop, Effect.connDisconnect]) := by
  cases hc : sh.cConnection with
  | none => exact absurd hc hconn
  | some c => simp only [runEnd, hc]

/-- C14: in every state reachable from a newly constructed handler through its
operations, if the datagram socket exists then the control connection exists, has
completed its handshake, and its peer address is `qhaRemote`. The last part of `run`
returns in every state with a connection, so after every run (its first part, then
any happenings, then its last part), and leaves neither the control connection nor
the datagram socket. -/
theorem udp_socket_invariant (env : Env) (sh : ServerHandler) (hreach : Reachable env sh) :
    (∀ sock, sh.qusUdp = some sock →
      ∃ c, sh.cConnection = some c ∧ c.encrypted = true ∧ sh.qhaRemote = c.peerAddress) ∧
    (∀ c, sh.cConnection = some c →
      runEnd sh =
        some ({ sh with cConnection := none, qusUdp := none },
          [Effect.tickerStop, Effect.connDisconnect]) ∧
      ∀ g, step env g sh Op.runEnd = some { sh with cConnection := none, qusUdp := none }) ∧
    (∀ (g : Global) (conn : Connection) (ops : List (Global × Op))
        (shRun shLoop : ServerHandler),
      step env g sh (Op.runStart conn) = some shRun →
      (∀ gop ∈ ops, gop.2 ≠ Op.runEnd) → execOps env shRun ops = some shLoop →
      ∃ shEnd effs, runEnd shLoop = some (shEnd, effs) ∧
        step env g shLoop Op.runEnd = some shEnd ∧
        shEnd.cConnection = none ∧ shEnd.qusUdp = none) ∧
    (∀ sh1 effs, runEnd sh = some (sh1, effs) →
      sh1.cConnection = none ∧ sh1.qusUdp = none) ∧
    (∀ g sh1, step env g sh Op.runEnd = some sh1 →
      sh1.cConnection = none ∧ sh1.qusUdp = none) := by
  have hend : ∀ sh1 effs, runEnd sh = some (sh1, effs) →
      sh1.cConnection = none ∧ sh1.qusUdp = none := by
    intro sh1 effs hrun
    cases hc : sh.cConnection with
    | none => simp [runEnd, hc] at hrun
    | some c =>
      simp only [runEnd, hc, Option.some.injEq, Prod.mk.injEq] at hrun
      rw [← hrun.1]
      exact ⟨rfl, rfl⟩
  refine ⟨reachable_udpInvariant env sh hreach, ?_, ?_, hend, ?_⟩
  · intro c hc
    have hret := runEnd_returns sh (by simp [hc])
    refine ⟨hret, fun g => ?_⟩
    simp only [step, hret, Option.map_some']
  · intro g conn ops shRun shLoop hstart hops hexec
    have hrun : shRun.cConnection ≠ none := by
      cases hc : sh.cConnection with
      | some c => simp [step, hc] at hstart
      | none =>
        cases he : conn.encrypted with
        | true => simp [step, hc, he] at hstart
        | false =>
          simp only [step, hc, he, Bool.false_eq_true, if_false, Option.some.injEq] at hstart
          subst hstart
          simp [runStart]
    have hloop := execOps_connection_stays env ops shRun shLoop hrun hops hexec
    have hret := runEnd_returns shLoop hloop
    exact ⟨_, _, hret, by simp only [step, hret, Option.map_some'], rfl, rfl⟩
  · intro g sh1 hstep
    cases hr : runEnd sh with
    | none => simp [step, hr] at hstep
    | some r =>
      simp only [step, hr, Option.map_some', Option.some.injEq] at hstep
      subst hstep
      exact hend r.1 r.2 hr

/-- Witness of `udp_socket_invariant`: in the state reached by the first part of `run`
followed by the handshake of the sample connection, the socket exists with the
encrypted connection of peer address 77, and the last part of `run` returns and
leaves neither. -/
theorem udp_socket_invariant_witness :
    (∃ c, sampleAfterHandshake.cConnection = some c ∧ c.encrypted = true ∧
      sampleAfterHandshake.qhaRemote = c.peerAddress) ∧
    runEnd sampleAfterHandshake =
      some ({ sampleAfterHandshake with cConnection := none, qusUdp := none },
        [Effect.tickerStop, Effect.connDisconnect]) :=
  ⟨(udp_socket_invariant sampleEnv sampleAfterHandshake
      ⟨sampleIdle, [(sampleGlobal, Op.runStart sampleFreshConnection),
        (sampleGlobal, Op.encrypted)], by decide⟩).1 { pending := [] } rfl,
   ((udp_socket_invariant sampleEnv sampleAfterHandshake
      ⟨sampleIdle, [(sampleGlobal, Op.runStart sampleFreshConnection),
        (sampleGlobal, Op.encrypted)], by decide⟩).2.1 sampleConnection rfl).1⟩

/-! ## Authentication -/

/-- C15: after `setConnectionInfo` has stored the parameters and the first part of
`run` has created the connection, `serverConnectionConnected` returns, and its first
call sends on the control connection an authenticate message that carries the stored
username and password and, as maximum bandwidth, the value of the audio input when
there is one and 0 otherwise; the datagram socket is created after that call. In any
state with a connection the message carries the stored `qsUserName` and `qsPassword`. -/
theorem authenticate_message (env : Env) (g : Global) (sh : ServerHandler)
    (host : String) (port : Int) (username pw : String) (conn : Connection) :
    ∃ sh1 msaMsg,
      serverConnectionConnected env g
          (runStart (setConnectionInfo sh host port username pw) conn).1 =
        some (sh1, [Effect.connSendMessagePtr msaMsg, Effect.udpBind, Effect.emitConnected]) ∧
      msaMsg.messageType = env.types.ServerAuthenticate ∧
      msaMsg.qsUsername = username ∧ msaMsg.qsPassword = pw ∧
      (∀ bw, g.ai = some bw → msaMsg.iMaxBandwidth = bw) ∧
      (g.ai = none → msaMsg.iMaxBandwidth = 0) ∧
      (runStart (setConnectionInfo sh host port username pw) conn).1.qusUdp = sh.qusUdp ∧
      sh1.qusUdp = some { pending := [] } ∧
      (∀ (sh2 : ServerHandler) (c : Connection), sh2.cConnection = some c →
        ∃ sh3 m, serverConnectionConnected env g sh2 =
            some (sh3, [Effect.connSendMessagePtr m, Effect.udpBind, Effect.emitConnected]) ∧
          m.qsUsername = sh2.qsUserName ∧ m.qsPassword = sh2.qsPassword ∧
          m.iMaxBandwidth = g.ai.getD 0) := by
  refine ⟨_, _, rfl, rfl, rfl, rfl, ?_, ?_, rfl, rfl, ?_⟩
  · intro bw hbw
    simp [hbw]
  · intro hnone
    simp [hnone]
  · intro sh2 c hc
    have hrun : serverConnectionConnected env g sh2 =
        some ({ sh2 with qscCert := c.peerCertificateChain, qscCipher := c.sessionCipher,
                         qusUdp := some { pending := [] }, qhaRemote := c.peerAddress },
          [Effect.connSendMessagePtr
             { Message.ofType env.types.ServerAuthenticate with
               qsUsername := sh2.qsUserName, qsPassword := sh2.qsPassword,
               iMaxBandwidth := g.ai.getD 0 },
           Effect.udpBind, Effect.emitConnected]) := by
      simp only [serverConnectionConnected, hc]
      cases g.ai <;> rfl
    exact ⟨_, _, hrun, rfl, rfl, rfl⟩

/-! ## Bitrate display -/

/-- The quotients of `int` division that occur for 1 to 4 frames per packet. -/
theorem tdiv_literals :
    Int.tdiv 13600 1 = 13600 ∧ Int.tdiv 18400 1 = 18400 ∧ Int.tdiv 14400 2 = 7200 ∧
    Int.tdiv 19200 2 = 9600 ∧ Int.tdiv 14800 3 = 4933 ∧ Int.tdiv 19600 3 = 6533 ∧
    Int.tdiv 15200 4 = 3800 ∧ Int.tdiv 20000 4 = 5000 ∧ Int.tdiv 4800 1 = 4800 ∧
    Int.tdiv 4800 2 = 2400 ∧ Int.tdiv 4800 3 = 1600 ∧ Int.tdiv 4800 4 = 1200 := by
  decide

/-- C16: for every audio bitrate and both settings of TCP mode and of position
transmission, the total bitrate `updateBitrate` computes is strictly smaller for
`p + 1` frames per packet than for `p`, for `p` from 1 to 3; its overhead and position
rate are the quotients of the claim's formulas; and for one frame per packet without
TCP mode the overhead is 13600 bit/s. -/
theorem updateBitrate_decreasing (audiorate : Int) (tcp bTransmitPosition : Bool) :
    (∀ p : Int, 1 ≤ p → p ≤ 3 →
      (updateBitrate audiorate (p + 1) tcp bTransmitPosition).total <
        (updateBitrate audiorate p tcp bTransmitPosition).total) ∧
    (∀ p : Int,
      (updateBitrate audiorate p tcp bTransmitPosition).total =
        audiorate + (updateBitrate audiorate p tcp bTransmitPosition).overhead +
          (updateBitrate audiorate p tcp bTransmitPosition).posrate ∧
      (updateBitrate audiorate p tcp bTransmitPosition).overhead =
        Int.tdiv (50 * 8 * (20 + 8 + 3 + 1 + 2) + (if tcp then 50 * 8 * 12 else 0) +
          (if p > 1 then p * 8 * 50 else 0)) p ∧
      (updateBitrate audiorate p tcp bTransmitPosition).posrate =
        Int.tdiv ((if bTransmitPosition then 12 else 0) * 50 * 8) p) ∧
    (updateBitrate audiorate 1 false bTransmitPosition).overhead = 13600 := by
  refine ⟨?_, ?_, ?_⟩
  · intro p h1 h3
    have hp : p = 1 ∨ p = 2 ∨ p = 3 := by omega
    rcases hp with rfl | rfl | rfl <;> cases tcp <;> cases bTransmitPosition <;>
      simp [updateBitrate, tdiv_literals] <;> omega
  · intro p
    refine ⟨rfl, ?_, ?_⟩
    · cases tcp <;> by_cases hp : p > 1 <;> simp [updateBitrate, hp]
    · rfl
  · cases bTransmitPosition <;> simp [updateBitrate, tdiv_literals]

end Mumble
